import Mathlib

/-!
Verification of the TrueWork plagiarism-detection backend.

The similarity engine is `cosine_similarity_check` in
`backend/app/plagiarism_checker/algorithms.py`: it strips both texts, returns
0.0 when either is empty, and otherwise fits a default-configured sklearn
`TfidfVectorizer` on the two texts and returns the cosine similarity of the two
resulting rows, with any exception (notably sklearn's "empty vocabulary"
`ValueError`) caught and turned into 0.0.

We embed the texts as lists of characters (the ASCII fragment: sklearn's
`\w` and Python's `str.strip()`/`str.lower()` act on Unicode, but every claim
and counterexample below lives in ASCII) and the floating-point arithmetic as
exact real arithmetic.
-/

namespace TrueWork

/-- An index term: a (lowercased) word as a list of characters. -/
abbrev Token := List Char

/-- Python's regex word-character class `\w` on ASCII: alphanumeric or underscore.
sklearn's default `token_pattern` is `(?u)\b\w\w+\b`. -/
def isWordChar (c : Char) : Bool := c.isAlphanum || c = '_'

/-- The ASCII whitespace stripped by Python's `str.strip()`. -/
def isPySpace (c : Char) : Bool :=
  c = ' ' || c = '\t' || c = '\n' || c = '\r' || c = '\x0b' || c = '\x0c'

/-- Python `str.strip()`: remove leading and trailing whitespace. -/
def strip (s : List Char) : List Char :=
  ((s.dropWhile isPySpace).reverse.dropWhile isPySpace).reverse

/-- Left-to-right scanner collecting maximal runs of characters satisfying `p`;
`acc` holds the current run, reversed.  This is how a regex engine's `findall`
walks the string. -/
def runsAux (p : Char → Bool) : List Char → List Char → List (List Char)
  | acc, [] => if acc.isEmpty then [] else [acc.reverse]
  | acc, c :: cs =>
    if p c then runsAux p (c :: acc) cs
    else if acc.isEmpty then runsAux p [] cs
    else acc.reverse :: runsAux p [] cs

/-- The maximal runs of characters satisfying `p` in `s`, in order. -/
def maximalRuns (p : Char → Bool) (s : List Char) : List (List Char) :=
  runsAux p [] s

/-- The default sklearn analyzer applied by `TfidfVectorizer`:
lowercase the text, then `re.findall(r"(?u)\b\w\w+\b", text)`, i.e. the
maximal runs of word characters of length at least 2. -/
def tokenize (text : List Char) : List Token :=
  (maximalRuns isWordChar (text.map Char.toLower)).filter (fun r => 2 ≤ r.length)

/-- Tokenizer following the spec's words for the comparison in C3: "a term is a
maximal run of alphanumeric characters of length ≥ 2" in the lowercased text
(no underscore: `Char.isAlphanum`, not `\w`). -/
def specAlnumTerms (text : List Char) : List Token :=
  (maximalRuns Char.isAlphanum (text.map Char.toLower)).filter (fun r => 2 ≤ r.length)

/-- Maximal-run decomposition written independently with `takeWhile`/`dropWhile`,
the reference against which the scanner `maximalRuns` is checked. -/
def runsSpan (p : Char → Bool) : List Char → List (List Char)
  | [] => []
  | c :: cs =>
    if p c then (c :: cs.takeWhile p) :: runsSpan p (cs.dropWhile p)
    else runsSpan p cs
termination_by l => l.length
decreasing_by
· simp only [List.length_cons]
  exact Nat.lt_succ_of_le (List.Sublist.length_le (List.dropWhile_sublist p))
· simp

/-- The amended C3 tokenizer: maximal runs of *word* characters (alphanumeric
or underscore) of length at least 2 in the lowercased text. -/
def specTermsAmended (text : List Char) : List Token :=
  (runsSpan isWordChar (text.map Char.toLower)).filter (fun r => 2 ≤ r.length)

/-! ### The TF-IDF engine: sklearn `TfidfVectorizer()` with default settings
(`lowercase=True`, `norm='l2'`, `use_idf=True`, `smooth_idf=True`,
`sublinear_tf=False`), fit on the two-document group `[text1, text2]`. -/

/-- Term frequency: number of occurrences of term `t` in a token sequence. -/
def tf (t : Token) (toks : List Token) : ℕ := toks.count t

/-- Document frequency of `t` within the two-document group: 0, 1, or 2. -/
def df (t : Token) (toks1 toks2 : List Token) : ℕ :=
  (if t ∈ toks1 then 1 else 0) + (if t ∈ toks2 then 1 else 0)

/-- sklearn's smoothed idf: `ln((1 + n) / (1 + df)) + 1`, with `n = 2` documents. -/
noncomputable def idf (t : Token) (toks1 toks2 : List Token) : ℝ :=
  Real.log ((1 + 2) / (1 + df t toks1 toks2)) + 1

/-- The group vocabulary: the distinct terms appearing in either document. -/
def vocab (toks1 toks2 : List Token) : Finset Token := (toks1 ++ toks2).toFinset

/-- Unnormalized tf-idf weight of `t` for the document with tokens `toks`. -/
noncomputable def rawWeight (toks toks1 toks2 : List Token) (t : Token) : ℝ :=
  tf t toks * idf t toks1 toks2

/-- Euclidean norm of a document's raw weight vector over the group vocabulary. -/
noncomputable def weightNorm (toks toks1 toks2 : List Token) : ℝ :=
  Real.sqrt (∑ t in vocab toks1 toks2, rawWeight toks toks1 toks2 t ^ 2)

/-- The L2-normalized row sklearn produces: each component divided by the row
norm, a zero row left untouched (`sklearn.preprocessing.normalize` replaces a
zero norm by 1 before dividing). -/
noncomputable def tfidfVec (toks toks1 toks2 : List Token) (t : Token) : ℝ :=
  rawWeight toks toks1 toks2 t /
    (if weightNorm toks toks1 toks2 = 0 then 1 else weightNorm toks toks1 toks2)

/-- The entry `cosine_similarity(vectors)[0, 1]`: the dot product of the two rows.
(`cosine_similarity` renormalizes its inputs, but each row here already has
norm 1 or is zero, so renormalization is the identity.) -/
noncomputable def cosineSim (toks1 toks2 : List Token) : ℝ :=
  ∑ t in vocab toks1 toks2, tfidfVec toks1 toks1 toks2 t * tfidfVec toks2 toks1 toks2 t

/-- The `try:` body of `cosine_similarity_check` after the two strip
assignments; `none` models an exception escaping to the `except` handler.
With the default token pattern the only exception `fit_transform` raises on
string input is the "empty vocabulary" `ValueError`, thrown exactly when
neither text yields a token. -/
noncomputable def tryBody (text1 text2 : List Char) : Option ℝ :=
  if strip text1 = [] ∨ strip text2 = [] then some 0
  else if tokenize (strip text1) = [] ∧ tokenize (strip text2) = [] then none
  else some (cosineSim (tokenize (strip text1)) (tokenize (strip text2)))

/-- The function `cosine_similarity_check(text1, text2)`: any exception from the body is
caught and turned into 0.0. -/
noncomputable def cosine_similarity_check (text1 text2 : List Char) : ℝ :=
  (tryBody text1 text2).getD 0

/-- The algorithm name `run_check` dispatches on. -/
def cosineAlgorithm : List Char := "cosine_similarity".toList

/-- The function `run_check(text1, text2, algorithm)` from `plagiarism_checker/core.py`:
run the matching algorithm, or raise `ValueError("Unsupported algorithm")`. -/
noncomputable def run_check (text1 text2 : List Char) (algorithm : List Char) :
    Except String ℝ :=
  if algorithm = cosineAlgorithm then .ok (cosine_similarity_check text1 text2)
  else .error ("Unsupported algorithm")

/-- The call `run_check` with Python's default argument `algorithm="cosine_similarity"`. -/
noncomputable def run_check_default (text1 text2 : List Char) : Except String ℝ :=
  run_check text1 text2 cosineAlgorithm

/-! ### The `/check` endpoint (`check_plagiarism` in `main.py`) -/

/-- A stored `Submission` row, as far as `/check` reads it. -/
structure Submission where
  id : ℕ
  text_content : List Char
deriving DecidableEq, Inhabited

/-- A `PlagiarismResult` row (its own autoincrement key ignored). -/
structure PlagiarismResult where
  submission1_id : ℕ
  submission2_id : ℕ
  similarity_score : ℝ

/-- Python's `range(a, b)`. -/
def pyRange (a b : ℕ) : List ℕ := List.range' a (b - a)

/-- The nested pair loop of `check_plagiarism`: index pairs `(i, j)` with
`i` from `range(len(submissions))` and `j` from `range(i + 1, len(submissions))`. -/
def pairIndices (n : ℕ) : List (ℕ × ℕ) :=
  (pyRange 0 n).flatMap fun i => (pyRange (i + 1) n).map fun j => (i, j)

/-- The scored rows one run of `check_plagiarism` builds: for each pair
`(i, j)` of the loop, the ids of the two submissions in query order and the
score from `core.run_check` with the default algorithm (which never raises,
so the handler's inner `try` never fires). -/
noncomputable def check_plagiarism (subs : List Submission) : List PlagiarismResult :=
  (pairIndices subs.length).map fun ij =>
    { submission1_id := (subs.getD ij.1 default).id
      submission2_id := (subs.getD ij.2 default).id
      similarity_score :=
        cosine_similarity_check (subs.getD ij.1 default).text_content
          (subs.getD ij.2 default).text_content }

/-- The slice of database state the `/check` endpoint touches. -/
structure DBState where
  submissions : List Submission
  results : List PlagiarismResult

/-- The statement `db.query(models.PlagiarismResult).delete()`. -/
def deleteResults (db : DBState) : DBState := { db with results := [] }

/-- The statement `db.add(result)`: append one pending row. -/
def addResult (db : DBState) (r : PlagiarismResult) : DBState :=
  { db with results := db.results ++ [r] }

/-- The whole `/check` handler as a state transformer: query all submissions,
delete all previous results, loop adding one scored row per pair, commit. -/
noncomputable def check_plagiarism_run (db : DBState) : DBState :=
  (check_plagiarism db.submissions).foldl addResult (deleteResults db)

/-! ### Lemmas about the tokenizer -/

theorem runsAux_eq (p : Char → Bool) (l : List Char) :
    (∀ acc : List Char, acc ≠ [] →
      runsAux p acc l = (acc.reverse ++ l.takeWhile p) :: runsSpan p (l.dropWhile p))
    ∧ runsAux p [] l = runsSpan p l := by
  induction l with
  | nil =>
    refine ⟨fun acc hacc => ?_, ?_⟩
    · simp [runsAux, List.isEmpty_iff, hacc, runsSpan]
    · simp [runsAux, runsSpan]
  | cons c cs ih =>
    have hspan : runsSpan p (c :: cs) =
        if p c then (c :: cs.takeWhile p) :: runsSpan p (cs.dropWhile p)
        else runsSpan p cs := by
      rw [runsSpan]
    refine ⟨fun acc hacc => ?_, ?_⟩
    · by_cases hp : p c = true
      · have h1 : runsAux p acc (c :: cs) = runsAux p (c :: acc) cs := by
          simp [runsAux, hp]
        rw [h1, ih.1 (c :: acc) (by simp), List.takeWhile_cons_of_pos hp,
          List.dropWhile_cons_of_pos hp]
        simp
      · have h1 : runsAux p acc (c :: cs) = acc.reverse :: runsAux p [] cs := by
          simp [runsAux, hp, List.isEmpty_iff, hacc]
        rw [h1, ih.2, List.takeWhile_cons_of_neg hp, List.dropWhile_cons_of_neg hp,
          hspan, if_neg hp]
        simp
    · by_cases hp : p c = true
      · have h1 : runsAux p [] (c :: cs) = runsAux p [c] cs := by
          simp [runsAux, hp]
        rw [h1, ih.1 [c] (by simp), hspan, if_pos hp]
        simp
      · have h1 : runsAux p [] (c :: cs) = runsAux p [] cs := by
          simp [runsAux, hp]
        rw [h1, ih.2, hspan, if_neg hp]

theorem maximalRuns_eq_runsSpan (p : Char → Bool) (l : List Char) :
    maximalRuns p l = runsSpan p l :=
  (runsAux_eq p l).2

theorem maximalRuns_eq_nil (p : Char → Bool) (l : List Char)
    (h : ∀ c ∈ l, p c = false) : maximalRuns p l = [] := by
  induction l with
  | nil => simp [maximalRuns, runsAux]
  | cons c cs ih =>
    have hc : p c = false := h c (List.mem_cons_self c cs)
    have h1 : maximalRuns p (c :: cs) = maximalRuns p cs := by
      simp [maximalRuns, runsAux, hc]
    rw [h1]
    exact ih fun x hx => h x (List.mem_cons_of_mem c hx)

theorem tokenize_nil : tokenize [] = [] := by
  simp [tokenize, maximalRuns, runsAux]

/-! ### Lemmas about the TF-IDF engine -/

theorem df_le_two (t : Token) (toks1 toks2 : List Token) : df t toks1 toks2 ≤ 2 := by
  unfold df; split_ifs <;> simp

theorem idf_pos (t : Token) (toks1 toks2 : List Token) : 0 < idf t toks1 toks2 := by
  have h2 : (df t toks1 toks2 : ℝ) ≤ 2 := by exact_mod_cast df_le_two t toks1 toks2
  have h0 : (0 : ℝ) ≤ (df t toks1 toks2 : ℝ) := Nat.cast_nonneg _
  have hpos : (0 : ℝ) < 1 + (df t toks1 toks2 : ℝ) := by linarith
  have hx : (1 : ℝ) ≤ (1 + 2) / (1 + (df t toks1 toks2 : ℝ)) := by
    rw [le_div_iff₀ hpos]; linarith
  have hlog := Real.log_nonneg hx
  unfold idf
  linarith

theorem rawWeight_nonneg (toks toks1 toks2 : List Token) (t : Token) :
    0 ≤ rawWeight toks toks1 toks2 t :=
  mul_nonneg (Nat.cast_nonneg _) (idf_pos t toks1 toks2).le

theorem weightNorm_nonneg (toks toks1 toks2 : List Token) :
    0 ≤ weightNorm toks toks1 toks2 := Real.sqrt_nonneg _

theorem denom_pos (toks toks1 toks2 : List Token) :
    0 < (if weightNorm toks toks1 toks2 = 0 then 1 else weightNorm toks toks1 toks2) := by
  split_ifs with h
  · norm_num
  · exact lt_of_le_of_ne (weightNorm_nonneg toks toks1 toks2) (Ne.symm h)

theorem tfidfVec_nonneg (toks toks1 toks2 : List Token) (t : Token) :
    0 ≤ tfidfVec toks toks1 toks2 t :=
  div_nonneg (rawWeight_nonneg toks toks1 toks2 t) (denom_pos toks toks1 toks2).le

theorem sum_sq_rawWeight (toks toks1 toks2 : List Token) :
    weightNorm toks toks1 toks2 ^ 2 =
      ∑ t in vocab toks1 toks2, rawWeight toks toks1 toks2 t ^ 2 :=
  Real.sq_sqrt (Finset.sum_nonneg fun _ _ => sq_nonneg _)

theorem sum_sq_tfidfVec_eq_one (toks toks1 toks2 : List Token)
    (h : weightNorm toks toks1 toks2 ≠ 0) :
    ∑ t in vocab toks1 toks2, tfidfVec toks toks1 toks2 t ^ 2 = 1 := by
  unfold tfidfVec
  rw [if_neg h]
  simp only [div_pow]
  rw [← Finset.sum_div, ← sum_sq_rawWeight toks toks1 toks2]
  exact div_self (pow_ne_zero 2 h)

theorem rawWeight_eq_zero_of_weightNorm_eq_zero (toks toks1 toks2 : List Token)
    (h : weightNorm toks toks1 toks2 = 0) (t : Token) (ht : t ∈ vocab toks1 toks2) :
    rawWeight toks toks1 toks2 t = 0 := by
  have hs : ∑ u in vocab toks1 toks2, rawWeight toks toks1 toks2 u ^ 2 = 0 := by
    rw [← sum_sq_rawWeight toks toks1 toks2, h]; ring
  have hz := (Finset.sum_eq_zero_iff_of_nonneg
    (fun u _ => sq_nonneg (rawWeight toks toks1 toks2 u))).1 hs t ht
  exact (pow_eq_zero_iff (two_ne_zero)).1 hz

theorem tfidfVec_eq_zero_of_weightNorm_eq_zero (toks toks1 toks2 : List Token)
    (h : weightNorm toks toks1 toks2 = 0) (t : Token) (ht : t ∈ vocab toks1 toks2) :
    tfidfVec toks toks1 toks2 t = 0 := by
  unfold tfidfVec
  rw [rawWeight_eq_zero_of_weightNorm_eq_zero toks toks1 toks2 h t ht, zero_div]

theorem sqrt_sum_sq_tfidfVec_le_one (toks toks1 toks2 : List Token) :
    Real.sqrt (∑ t in vocab toks1 toks2, tfidfVec toks toks1 toks2 t ^ 2) ≤ 1 := by
  by_cases h : weightNorm toks toks1 toks2 = 0
  · have hz : ∑ t in vocab toks1 toks2, tfidfVec toks toks1 toks2 t ^ 2 = 0 :=
      Finset.sum_eq_zero fun t ht => by
        rw [tfidfVec_eq_zero_of_weightNorm_eq_zero toks toks1 toks2 h t ht]; ring
    rw [hz, Real.sqrt_zero]; norm_num
  · rw [sum_sq_tfidfVec_eq_one toks toks1 toks2 h, Real.sqrt_one]

theorem cosineSim_nonneg (toks1 toks2 : List Token) : 0 ≤ cosineSim toks1 toks2 :=
  Finset.sum_nonneg fun t _ =>
    mul_nonneg (tfidfVec_nonneg toks1 toks1 toks2 t) (tfidfVec_nonneg toks2 toks1 toks2 t)

theorem cosineSim_le_one (toks1 toks2 : List Token) : cosineSim toks1 toks2 ≤ 1 := by
  have hcs := Real.sum_mul_le_sqrt_mul_sqrt (vocab toks1 toks2)
    (fun t => tfidfVec toks1 toks1 toks2 t) (fun t => tfidfVec toks2 toks1 toks2 t)
  have h1 := sqrt_sum_sq_tfidfVec_le_one toks1 toks1 toks2
  have h2 := sqrt_sum_sq_tfidfVec_le_one toks2 toks1 toks2
  have hmul := mul_le_one₀ h1 (Real.sqrt_nonneg _) h2
  exact le_trans hcs hmul

theorem cosine_similarity_check_cases (a b : List Char) :
    cosine_similarity_check a b =
      if strip a = [] ∨ strip b = [] then 0
      else if tokenize (strip a) = [] ∧ tokenize (strip b) = [] then 0
      else cosineSim (tokenize (strip a)) (tokenize (strip b)) := by
  unfold cosine_similarity_check tryBody
  split_ifs <;> simp

theorem tryBody_eq_none_iff (a b : List Char) :
    tryBody a b = none ↔
      strip a ≠ [] ∧ strip b ≠ [] ∧ tokenize (strip a) = [] ∧ tokenize (strip b) = [] := by
  unfold tryBody
  split_ifs with h1 h2
  · constructor
    · intro h; simp at h
    · rintro ⟨ha, hb, -, -⟩
      rcases h1 with h | h
      · exact absurd h ha
      · exact absurd h hb
  · push_neg at h1
    exact ⟨fun _ => ⟨h1.1, h1.2, h2.1, h2.2⟩, fun _ => rfl⟩
  · constructor
    · intro h; simp at h
    · rintro ⟨-, -, h3, h4⟩
      exact absurd ⟨h3, h4⟩ h2

/-- C1: for every pair of input texts, `cosine_similarity_check` returns a
value in the closed interval [0, 1]; in the exact-arithmetic model the
score provably never leaves the interval, which is the guarantee the spec's
clamping language asserts. -/
theorem cosine_similarity_check_bounded (a b : List Char) :
    0 ≤ cosine_similarity_check a b ∧ cosine_similarity_check a b ≤ 1 := by
  rw [cosine_similarity_check_cases]
  split_ifs with h1 h2
  · norm_num
  · norm_num
  · exact ⟨cosineSim_nonneg _ _, cosineSim_le_one _ _⟩

theorem mem_vocab_left {t : Token} {toks1 toks2 : List Token} (h : t ∈ toks1) :
    t ∈ vocab toks1 toks2 := by
  unfold vocab
  rw [List.mem_toFinset]
  exact List.mem_append_left _ h

theorem mem_vocab_right {t : Token} {toks1 toks2 : List Token} (h : t ∈ toks2) :
    t ∈ vocab toks1 toks2 := by
  unfold vocab
  rw [List.mem_toFinset]
  exact List.mem_append_right _ h

theorem weightNorm_pos_of_mem (toks toks1 toks2 : List Token) (t : Token)
    (ht : t ∈ toks) (hv : t ∈ vocab toks1 toks2) : 0 < weightNorm toks toks1 toks2 := by
  have htf : 0 < (tf t toks : ℝ) := by
    have : 0 < tf t toks := by
      unfold tf
      exact List.count_pos_iff.2 ht
    exact_mod_cast this
  have hw : 0 < rawWeight toks toks1 toks2 t := mul_pos htf (idf_pos t toks1 toks2)
  have hle : rawWeight toks toks1 toks2 t ^ 2 ≤
      ∑ u in vocab toks1 toks2, rawWeight toks toks1 toks2 u ^ 2 :=
    Finset.single_le_sum (fun u _ => sq_nonneg (rawWeight toks toks1 toks2 u)) hv
  have hsum : 0 < ∑ u in vocab toks1 toks2, rawWeight toks toks1 toks2 u ^ 2 := by
    have := pow_pos hw 2
    linarith
  unfold weightNorm
  exact Real.sqrt_pos.2 hsum

theorem tfidfVec_pos_of_mem (toks toks1 toks2 : List Token) (t : Token)
    (ht : t ∈ toks) (hv : t ∈ vocab toks1 toks2) : 0 < tfidfVec toks toks1 toks2 t := by
  have hnorm := weightNorm_pos_of_mem toks toks1 toks2 t ht hv
  have htf : 0 < (tf t toks : ℝ) := by
    have : 0 < tf t toks := by
      unfold tf
      exact List.count_pos_iff.2 ht
    exact_mod_cast this
  have hw : 0 < rawWeight toks toks1 toks2 t := mul_pos htf (idf_pos t toks1 toks2)
  unfold tfidfVec
  rw [if_neg hnorm.ne']
  exact div_pos hw hnorm

theorem cosineSim_self (toks : List Token) (h : toks ≠ []) : cosineSim toks toks = 1 := by
  obtain ⟨t0, ht0⟩ := List.exists_mem_of_ne_nil toks h
  have hnorm : weightNorm toks toks toks ≠ 0 :=
    (weightNorm_pos_of_mem toks toks toks t0 ht0 (mem_vocab_left ht0)).ne'
  unfold cosineSim
  calc ∑ t in vocab toks toks, tfidfVec toks toks toks t * tfidfVec toks toks toks t
      = ∑ t in vocab toks toks, tfidfVec toks toks toks t ^ 2 :=
        Finset.sum_congr rfl fun t _ => (pow_two _).symm
    _ = 1 := sum_sq_tfidfVec_eq_one toks toks toks hnorm

/-- C2 (amended): for every text that yields at least one index term, comparing
the text with itself scores exactly 1.0 — in particular within the 1e-6
tolerance.  (The claim's "non-empty" hypothesis is not enough: see the
counterexample.) -/
theorem cosine_similarity_check_self_eq_one (t : List Char)
    (h : tokenize (strip t) ≠ []) : cosine_similarity_check t t = 1 := by
  have hs : strip t ≠ [] := by
    intro he
    rw [he, tokenize_nil] at h
    exact h rfl
  rw [cosine_similarity_check_cases,
    if_neg (fun hc => hc.elim hs hs), if_neg (fun hc => h hc.1)]
  exact cosineSim_self _ h

/-- Witness for the amended C2 at the concrete text "ab". -/
theorem cosine_similarity_check_self_eq_one_witness :
    tokenize (strip ['a', 'b']) ≠ [] ∧
      cosine_similarity_check ['a', 'b'] ['a', 'b'] = 1 :=
  ⟨by decide, cosine_similarity_check_self_eq_one ['a', 'b'] (by decide)⟩

/-- C2 fails as stated: the text "a" is non-empty, yet comparing it with
itself scores 0.0 (the vectorizer finds no term of length ≥ 2 and raises
"empty vocabulary"; the handler returns 0.0), which is not within 1e-6 of 1. -/
theorem cosine_similarity_check_self_counterexample :
    ['a'] ≠ ([] : List Char) ∧
      ¬ (|cosine_similarity_check ['a'] ['a'] - 1| ≤ 1 / 1000000) := by
  refine ⟨by decide, ?_⟩
  have h : cosine_similarity_check ['a'] ['a'] = 0 := by
    rw [cosine_similarity_check_cases, if_neg (by decide), if_pos (by decide)]
  rw [h]
  norm_num

theorem tfidfVec_eq_zero_of_not_mem (toks toks1 toks2 : List Token) (t : Token)
    (h : t ∉ toks) : tfidfVec toks toks1 toks2 t = 0 := by
  unfold tfidfVec rawWeight tf
  rw [List.count_eq_zero_of_not_mem h]
  simp

theorem cosineSim_nil_left (toks2 : List Token) : cosineSim [] toks2 = 0 :=
  Finset.sum_eq_zero fun t _ => by
    rw [tfidfVec_eq_zero_of_not_mem [] [] toks2 t (List.not_mem_nil t), zero_mul]

theorem cosineSim_nil_right (toks1 : List Token) : cosineSim toks1 [] = 0 :=
  Finset.sum_eq_zero fun t _ => by
    rw [tfidfVec_eq_zero_of_not_mem [] toks1 [] t (List.not_mem_nil t), mul_zero]

/-- C7: if either text is empty, whitespace-only, or yields no token of
length at least 2, `cosine_similarity_check` returns 0.0; in the embedding
the function is total — the empty-vocabulary exception is caught, never
surfaced. -/
theorem cosine_similarity_check_degenerate (a b : List Char)
    (h : strip a = [] ∨ strip b = [] ∨
      tokenize (strip a) = [] ∨ tokenize (strip b) = []) :
    cosine_similarity_check a b = 0 := by
  rw [cosine_similarity_check_cases]
  split_ifs with h1 h2
  · rfl
  · rfl
  · push_neg at h1
    rcases h with h | h | h | h
    · exact absurd h h1.1
    · exact absurd h h1.2
    · rw [h]; exact cosineSim_nil_left _
    · rw [h]; exact cosineSim_nil_right _

/-- Witness for C7: a whitespace-only text against "ab". -/
theorem cosine_similarity_check_degenerate_witness :
    (strip [' '] = [] ∨ strip ['a', 'b'] = [] ∨
      tokenize (strip [' ']) = [] ∨ tokenize (strip ['a', 'b']) = []) ∧
      cosine_similarity_check [' '] ['a', 'b'] = 0 :=
  ⟨by decide, cosine_similarity_check_degenerate [' '] ['a', 'b'] (by decide)⟩

/-- C8: two texts sharing no token of length at least 2 score exactly 0.0. -/
theorem cosine_similarity_check_disjoint (a b : List Char)
    (h : ∀ t ∈ tokenize (strip a), t ∉ tokenize (strip b)) :
    cosine_similarity_check a b = 0 := by
  rw [cosine_similarity_check_cases]
  split_ifs with h1 h2
  · rfl
  · rfl
  · unfold cosineSim
    refine Finset.sum_eq_zero fun t _ => ?_
    by_cases hm : t ∈ tokenize (strip a)
    · rw [tfidfVec_eq_zero_of_not_mem _ _ _ t (h t hm), mul_zero]
    · rw [tfidfVec_eq_zero_of_not_mem _ _ _ t hm, zero_mul]

/-- Witness for C8: "ab" and "cd" share no token. -/
theorem cosine_similarity_check_disjoint_witness :
    (∀ t ∈ tokenize (strip ['a', 'b']), t ∉ tokenize (strip ['c', 'd'])) ∧
      cosine_similarity_check ['a', 'b'] ['c', 'd'] = 0 :=
  ⟨by decide, cosine_similarity_check_disjoint ['a', 'b'] ['c', 'd'] (by decide)⟩

/-! ### C3: what the tokenizer indexes -/

/-- C3 fails as stated: sklearn's token pattern `\w\w+` treats the underscore
as a word character, so the text "a_b" is indexed as the single term "a_b",
while the spec's "maximal runs of alphanumeric characters of length ≥ 2"
yields no term at all for it. -/
theorem tokenize_ne_specAlnumTerms :
    tokenize ['a', '_', 'b'] ≠ specAlnumTerms ['a', '_', 'b'] := by decide

theorem toLower_not_word_of_space {d : Char} (h : isPySpace d = true) :
    isWordChar d.toLower = false := by
  unfold isPySpace at h
  simp only [Bool.or_eq_true, decide_eq_true_eq] at h
  rcases h with ((((h | h) | h) | h) | h) | h <;> subst h <;> decide

/-- C3 (amended): the indexed terms are exactly the maximal runs of *word*
characters — alphanumeric or underscore — of length at least 2 in the
lowercased text, and empty or whitespace-only text yields the empty term
sequence. -/
theorem tokenize_eq_specTermsAmended (text : List Char) :
    tokenize text = specTermsAmended text ∧
      (text.all isPySpace = true → tokenize text = []) := by
  constructor
  · unfold tokenize specTermsAmended
    rw [maximalRuns_eq_runsSpan]
  · intro hws
    unfold tokenize
    rw [maximalRuns_eq_nil, List.filter_nil]
    intro c hc
    rw [List.mem_map] at hc
    obtain ⟨d, hd, rfl⟩ := hc
    have hds : isPySpace d = true := by
      rw [List.all_eq_true] at hws
      exact hws d hd
    exact toLower_not_word_of_space hds

/-- Witness for the amended C3 at the whitespace-only text " ". -/
theorem tokenize_eq_specTermsAmended_witness :
    ([' '].all isPySpace = true) ∧ tokenize [' '] = [] :=
  ⟨by decide, (tokenize_eq_specTermsAmended [' ']).2 (by decide)⟩

/-! ### C6: the weight vector of a document in its comparison group -/

/-- C6: in the two-document comparison group (N = 2), the raw weight of term
`t` is `tf(t, doc) * (ln((1 + N) / (1 + df(t))) + 1)`; after L2 normalization
the vector has Euclidean norm 1 whenever some entry over the group vocabulary
is non-zero, and it is the zero vector when the document yields no terms. -/
theorem tfidf_weight_formula_and_norm (toks toks1 toks2 : List Token) :
    (∀ t : Token, rawWeight toks toks1 toks2 t =
        (tf t toks : ℝ) * (Real.log ((1 + 2) / (1 + (df t toks1 toks2 : ℝ))) + 1)) ∧
    ((∃ t ∈ vocab toks1 toks2, tfidfVec toks toks1 toks2 t ≠ 0) →
        Real.sqrt (∑ t in vocab toks1 toks2, tfidfVec toks toks1 toks2 t ^ 2) = 1) ∧
    (toks = [] → ∀ t : Token, tfidfVec toks toks1 toks2 t = 0) := by
  refine ⟨fun t => rfl, fun ⟨t, ht, hne⟩ => ?_, fun h t => ?_⟩
  · have hnorm : weightNorm toks toks1 toks2 ≠ 0 := fun h0 =>
      hne (tfidfVec_eq_zero_of_weightNorm_eq_zero toks toks1 toks2 h0 t ht)
    rw [sum_sq_tfidfVec_eq_one toks toks1 toks2 hnorm, Real.sqrt_one]
  · subst h
    exact tfidfVec_eq_zero_of_not_mem [] toks1 toks2 t (List.not_mem_nil t)

/-- Witness for C6: the group "ab" vs "cd" for the norm-1 part, and a
token-less document in the same group for the zero-vector part. -/
theorem tfidf_weight_formula_and_norm_witness :
    Real.sqrt (∑ t in vocab [['a', 'b']] [['c', 'd']],
        tfidfVec [['a', 'b']] [['a', 'b']] [['c', 'd']] t ^ 2) = 1 ∧
      tfidfVec [] [['a', 'b']] [['c', 'd']] ['a', 'b'] = 0 :=
  ⟨(tfidf_weight_formula_and_norm [['a', 'b']] [['a', 'b']] [['c', 'd']]).2.1
      ⟨['a', 'b'], by decide,
        (tfidfVec_pos_of_mem [['a', 'b']] [['a', 'b']] [['c', 'd']] ['a', 'b']
          (by decide) (by decide)).ne'⟩,
    (tfidf_weight_formula_and_norm [] [['a', 'b']] [['c', 'd']]).2.2 rfl ['a', 'b']⟩

/-! ### The pair loop of the /check endpoint -/

theorem list_range_map_sum (n : ℕ) (f : ℕ → ℕ) :
    ((List.range n).map f).sum = ∑ i in Finset.range n, f i := by
  induction n with
  | zero => simp
  | succ n ih =>
    rw [List.range_succ, List.map_append, List.sum_append, Finset.sum_range_succ, ih]
    simp

theorem length_pairIndices (n : ℕ) : (pairIndices n).length = n * (n - 1) / 2 := by
  unfold pairIndices pyRange
  rw [List.flatMap_def, List.length_flatten, List.map_map]
  have h1 : List.range' 0 (n - 0) = List.range n := by
    rw [Nat.sub_zero, List.range_eq_range']
  rw [h1]
  simp only [Function.comp_def, List.length_map, List.length_range']
  rw [list_range_map_sum n fun i => n - (i + 1)]
  have h3 : ∑ i in Finset.range n, (n - (i + 1)) = ∑ i in Finset.range n, (n - 1 - i) :=
    Finset.sum_congr rfl fun i _ => by omega
  have h4 := Finset.sum_range_reflect (fun j => j) n
  rw [h3, h4, Finset.sum_range_id]

theorem mem_pairIndices (n i j : ℕ) : (i, j) ∈ pairIndices n ↔ i < j ∧ j < n := by
  unfold pairIndices pyRange
  simp only [List.mem_flatMap, List.mem_map]
  constructor
  · rintro ⟨a, ha, b, hb, hab⟩
    rw [List.mem_range'] at ha hb
    obtain ⟨k, hk, rfl⟩ := ha
    obtain ⟨m, hm, rfl⟩ := hb
    rw [Prod.mk.injEq] at hab
    obtain ⟨h1, h2⟩ := hab
    omega
  · rintro ⟨hij, hjn⟩
    refine ⟨i, ?_, j, ?_, rfl⟩
    · rw [List.mem_range']
      exact ⟨i, by omega, by omega⟩
    · rw [List.mem_range']
      exact ⟨j - (i + 1), by omega, by omega⟩

theorem nodup_pairIndices (n : ℕ) : (pairIndices n).Nodup := by
  unfold pairIndices pyRange
  refine List.nodup_flatMap.2 ⟨fun i _ => ?_, ?_⟩
  · exact (List.nodup_range' ..).map fun a b h => by simpa using congrArg Prod.snd h
  · refine List.Pairwise.imp ?_ (List.nodup_range' ..)
    intro a b hne x hxa hxb
    rw [List.mem_map] at hxa hxb
    obtain ⟨ja, _, rfl⟩ := hxa
    obtain ⟨jb, _, heq⟩ := hxb
    exact hne (congrArg Prod.fst heq).symm

/-- C5: one run over the n stored submissions produces exactly n(n-1)/2 scored
triples: the loop ranges over exactly the index pairs i < j < n, each exactly
once and never with i = j, and the triple built from pair (i, j) carries the
id of the earlier submission first. -/
theorem check_plagiarism_pair_complete (subs : List Submission) :
    check_plagiarism subs =
      (pairIndices subs.length).map (fun ij =>
        { submission1_id := (subs.getD ij.1 default).id
          submission2_id := (subs.getD ij.2 default).id
          similarity_score :=
            cosine_similarity_check (subs.getD ij.1 default).text_content
              (subs.getD ij.2 default).text_content }) ∧
    (∀ i j : ℕ, (i, j) ∈ pairIndices subs.length ↔ i < j ∧ j < subs.length) ∧
    (pairIndices subs.length).Nodup ∧
    (check_plagiarism subs).length = subs.length * (subs.length - 1) / 2 := by
  refine ⟨rfl, fun i j => mem_pairIndices subs.length i j,
    nodup_pairIndices subs.length, ?_⟩
  unfold check_plagiarism
  rw [List.length_map, length_pairIndices]

/-- C4: a vectorization failure on one pair does not abort the run: the loop
still records that pair with score 0.0 and still emits all n(n-1)/2 triples. -/
theorem check_plagiarism_survives_failure (subs : List Submission) (i j : ℕ)
    (hij : i < j) (hj : j < subs.length)
    (hfail : tryBody (subs.getD i default).text_content
      (subs.getD j default).text_content = none) :
    ({ submission1_id := (subs.getD i default).id
       submission2_id := (subs.getD j default).id
       similarity_score := 0 } : PlagiarismResult) ∈ check_plagiarism subs ∧
    (check_plagiarism subs).length = subs.length * (subs.length - 1) / 2 := by
  constructor
  · have hmem : (i, j) ∈ pairIndices subs.length := (mem_pairIndices _ i j).2 ⟨hij, hj⟩
    have hscore : cosine_similarity_check (subs.getD i default).text_content
        (subs.getD j default).text_content = 0 := by
      unfold cosine_similarity_check
      rw [hfail]
      rfl
    unfold check_plagiarism
    refine List.mem_map.2 ⟨(i, j), hmem, ?_⟩
    rw [hscore]
  · unfold check_plagiarism
    rw [List.length_map, length_pairIndices]

/-- Witness for C4: three submissions where the first two texts ("a" and "b")
both tokenize to nothing, so scoring their pair hits the empty-vocabulary
failure; the run still records all three pairs, the failing one with 0.0. -/
theorem check_plagiarism_survives_failure_witness :
    tryBody ['a'] ['b'] = none ∧
    ({ submission1_id := 1, submission2_id := 2, similarity_score := 0 } :
        PlagiarismResult) ∈
      check_plagiarism [⟨1, ['a']⟩, ⟨2, ['b']⟩, ⟨3, ['a', 'b']⟩] ∧
    (check_plagiarism [⟨1, ['a']⟩, ⟨2, ['b']⟩, ⟨3, ['a', 'b']⟩]).length = 3 := by
  have hfail : tryBody ['a'] ['b'] = none :=
    (tryBody_eq_none_iff ['a'] ['b']).2 (by decide)
  have h := check_plagiarism_survives_failure
    [⟨1, ['a']⟩, ⟨2, ['b']⟩, ⟨3, ['a', 'b']⟩] 0 1 (by decide) (by decide) hfail
  exact ⟨hfail, h.1, h.2⟩

theorem foldl_addResult (l : List PlagiarismResult) (db : DBState) :
    (l.foldl addResult db).submissions = db.submissions ∧
      (l.foldl addResult db).results = db.results ++ l := by
  induction l generalizing db with
  | nil => simp
  | cons r rs ih =>
    rw [List.foldl_cons]
    obtain ⟨h1, h2⟩ := ih (addResult db r)
    refine ⟨h1, ?_⟩
    rw [h2]
    simp [addResult]

/-- C9: one run of the /check handler first deletes every stored
`PlagiarismResult` row, so afterwards the stored results are exactly the
current run's scored pairs — independent of whatever was stored before — and
the stored `Submission` rows are unchanged. -/
theorem check_plagiarism_run_frame (db : DBState) :
    (check_plagiarism_run db).submissions = db.submissions ∧
      (check_plagiarism_run db).results = check_plagiarism db.submissions := by
  unfold check_plagiarism_run
  obtain ⟨h1, h2⟩ := foldl_addResult (check_plagiarism db.submissions) (deleteResults db)
  refine ⟨h1, ?_⟩
  rw [h2]
  simp [deleteResults]

/-- C10: `run_check` fails with ValueError for every algorithm string other
than "cosine_similarity", and for that algorithm — also the default — it
returns exactly `cosine_similarity_check(text1, text2)`. -/
theorem run_check_dispatch (text1 text2 algorithm : List Char) :
    (algorithm ≠ cosineAlgorithm →
      run_check text1 text2 algorithm = .error ("Unsupported algorithm")) ∧
    run_check text1 text2 cosineAlgorithm = .ok (cosine_similarity_check text1 text2) ∧
    run_check_default text1 text2 = .ok (cosine_similarity_check text1 text2) := by
  refine ⟨fun h => ?_, ?_, ?_⟩
  · unfold run_check
    rw [if_neg h]
  · unfold run_check
    rw [if_pos rfl]
  · unfold run_check_default run_check
    rw [if_pos rfl]

/-- Witness for C10: the algorithm string "x" is rejected. -/
theorem run_check_dispatch_witness :
    (['x'] : List Char) ≠ cosineAlgorithm ∧
      run_check ['a', 'b'] ['c', 'd'] ['x'] = .error ("Unsupported algorithm") :=
  ⟨by decide, (run_check_dispatch ['a', 'b'] ['c', 'd'] ['x']).1 (by decide)⟩

end TrueWork
